import Mathlib

/-!
Verification of the karaoke lyrics web application (sile16/karaoke).

Shallow embedding of the time-synchronized lyrics rendering and seek
model: the timed lyric data model (segments, words, syllables), the
temporal activation resolver (active-segment lookup, word/segment
progress), the seek coordinator state updates, the playback-rate
handler, the lyrics-document load fallback chain, the syllable view
renderer, and the song-library CRUD operations backed by a single
localStorage key.

Times are modelled as rationals (the source manipulates JS numbers with
exact comparisons and divisions at the values of interest).  A JS
division that produces NaN (0/0 on a degenerate interval) is modelled
by an Option result, none standing for NaN, which in the source
propagates through Math.min / Math.max.
-/

namespace Karaoke

/-! ## Timed lyric data model (LyricsDisplay.tsx / WordTimingDisplay.tsx) -/

/-- Syllable: `{ text, start, end }`. -/
structure Syllable where
  text : String
  start : ℚ
  end_ : ℚ
deriving Repr, DecidableEq

/-- Optional word translation `{ literal, contextual? }`. -/
structure Translation where
  literal : String
  contextual : Option String
deriving Repr, DecidableEq

/-- Word: `{ text, start, end, confidence, syllables, translation? }`. -/
structure Word where
  text : String
  start : ℚ
  end_ : ℚ
  confidence : ℚ
  syllables : List Syllable
  translation : Option Translation
deriving Repr, DecidableEq

/-- Segment: `{ id, text, start, end, words }`. -/
structure Segment where
  id : String
  text : String
  start : ℚ
  end_ : ℚ
  words : List Word
deriving Repr, DecidableEq

/-! ## Temporal activation resolver -/

/-- ProgressBar.tsx `getCurrentSegment` predicate:
`currentTime >= segment.start && currentTime <= segment.end`. -/
def segContains (currentTime : ℚ) (s : Segment) : Bool :=
  decide (currentTime ≥ s.start ∧ currentTime ≤ s.end_)

/-- ProgressBar.tsx `getCurrentSegment`:
`segments.find(segment => currentTime >= segment.start && currentTime <= segment.end)`.
`Array.prototype.find` returns the first element in document order
satisfying the predicate, or undefined (here: none). -/
def getCurrentSegment (currentTime : ℚ) (segments : List Segment) : Option Segment :=
  segments.find? (segContains currentTime)

/-- LyricsDisplay.tsx `isWordActive`:
`currentTime >= word.start && currentTime <= word.end` (same formula is
inlined in WordTimingDisplay.tsx for each word). -/
def isWordActive (currentTime : ℚ) (word : Word) : Bool :=
  decide (currentTime ≥ word.start ∧ currentTime ≤ word.end_)

/-- LyricsDisplay.tsx `isSyllableActive`:
`currentTime >= syllable.start && currentTime <= syllable.end`. -/
def isSyllableActive (currentTime : ℚ) (syllable : Syllable) : Bool :=
  decide (currentTime ≥ syllable.start ∧ currentTime ≤ syllable.end_)

/-- LyricsDisplay.tsx `isSegmentActive` (also WordTimingDisplay.tsx
`isSegmentActive`): `currentTime >= segment.start && currentTime <= segment.end`. -/
def isSegmentActive (currentTime : ℚ) (segment : Segment) : Bool :=
  decide (currentTime ≥ segment.start ∧ currentTime ≤ segment.end_)

/-- Common body of WordTimingDisplay.tsx `getWordProgress` and
`getSegmentProgress` (the two source closures have textually identical
bodies over `(start, end)`):

```
if (currentTime < start) return 0;
if (currentTime > end) return 100;
const duration = end - start;
const elapsed = currentTime - start;
return Math.min(100, Math.max(0, (elapsed / duration) * 100));
```

When `duration = 0` the reachable case is `elapsed = 0`; JS `0/0` is NaN
and NaN propagates through `* 100`, `Math.max`, `Math.min`, so the
result is NaN, modelled as `none`. -/
def progressPercent (currentTime start end_ : ℚ) : Option ℚ :=
  if currentTime < start then some 0
  else if currentTime > end_ then some 100
  else
    let duration := end_ - start
    let elapsed := currentTime - start
    if duration = 0 then none
    else some (min 100 (max 0 (elapsed / duration * 100)))

/-- WordTimingDisplay.tsx `getWordProgress`. -/
def getWordProgress (currentTime : ℚ) (word : Word) : Option ℚ :=
  progressPercent currentTime word.start word.end_

/-- WordTimingDisplay.tsx `getSegmentProgress`. -/
def getSegmentProgress (currentTime : ℚ) (segment : Segment) : Option ℚ :=
  progressPercent currentTime segment.start segment.end_

/-- The source works on a 0–100 percent scale (CSS width); the spec
function `progressWithin` is the same quantity as a fraction in `[0,1]`:
percent / 100. -/
def wordProgressFrac (currentTime : ℚ) (word : Word) : Option ℚ :=
  (getWordProgress currentTime word).map (fun p => p / 100)

/-- Fractional version of `getSegmentProgress` (percent / 100). -/
def segmentProgressFrac (currentTime : ℚ) (segment : Segment) : Option ℚ :=
  (getSegmentProgress currentTime segment).map (fun p => p / 100)

/-! ## Seek coordinator (App.tsx `handleSeek`, AudioPlayer.tsx `seekToTime`) -/

/-- The time-holding state visible to the seek path: the `currentTime`
React state of App (read by the resolver and all lyric views), the own
`currentTime` state of the AudioPlayer component, and the `currentTime`
property of the media element.  `audioPresent` models whether the refs
to the media element / player component are non-null. -/
structure SeekState where
  appTime : ℚ
  playerTime : ℚ
  audioTime : ℚ
  audioPresent : Bool
deriving Repr, DecidableEq

/-- AudioPlayer.tsx `seekToTime(time)`:
`if (!audio) return; audio.currentTime = time; setCurrentTime(time);`. -/
def seekToTime (time : ℚ) (s : SeekState) : SeekState :=
  if s.audioPresent then { s with audioTime := time, playerTime := time } else s

/-- App.tsx `handleSeek(time)`:
`setCurrentTime(time); if (audioPlayerRef.current) { audioPlayerRef.current.seekToTime(time); }`.
The local current-time state is updated first, without waiting for any
engine event. -/
def handleSeek (time : ℚ) (s : SeekState) : SeekState :=
  let s1 := { s with appTime := time }
  if s.audioPresent then seekToTime time s1 else s1

/-- AudioPlayer.tsx `handleTimeUpdate` + App.tsx `handleTimeUpdate`
(engine-initiated): `const time = audio.currentTime; setCurrentTime(time);
onTimeUpdate(time)` which sets the App `currentTime` state. -/
def engineTimeUpdate (s : SeekState) : SeekState :=
  { s with playerTime := s.audioTime, appTime := s.audioTime }

/-! ## Playback rate (AudioPlayer.tsx `handleSpeedChange`) -/

/-- AudioPlayer state touched by the speed handler: the `playbackSpeed`
React state (percent) and the `playbackRate` / `preservesPitch`
properties of the media element. -/
structure PlayerRateState where
  playbackSpeed : ℤ
  playbackRate : ℚ
  preservesPitch : Bool
deriving Repr, DecidableEq

/-- AudioPlayer.tsx `handleSpeedChange`:
`const speed = parseInt(e.target.value); setPlaybackSpeed(speed);
audio.playbackRate = speed / 100; audio.preservesPitch = true;`.
The handler performs no validation of the received value. -/
def handleSpeedChange (speed : ℤ) (s : PlayerRateState) : PlayerRateState :=
  { s with playbackSpeed := speed, playbackRate := (speed : ℚ) / 100,
           preservesPitch := true }

/-- The option values offered by the speed `<select>` element
(AudioPlayer.tsx JSX: options 50, 60, 70, 80, 90, 100). -/
def offeredSpeeds : List ℤ := [50, 60, 70, 80, 90, 100]

/-- The supported discrete rate set {0.5 .. 1.0 step 0.1} as rationals. -/
def supportedRates : List ℚ := [1/2, 3/5, 7/10, 4/5, 9/10, 1]

/-! ## Lyrics document and load fallback chain (App.tsx) -/

/-- Lyrics document metadata. -/
structure Metadata where
  title : String
  artists : List String
  duration : ℚ
  language : String
  alignment_method : String
  alignment_quality : ℚ
deriving Repr, DecidableEq

/-- Lyrics document: `{ metadata, segments }`. -/
structure LyricsDoc where
  metadata : Metadata
  segments : List Segment
deriving Repr, DecidableEq

/-- App.tsx `sampleLyricsData`: the built-in placeholder document. -/
def sampleLyricsData : LyricsDoc :=
  { metadata :=
      { title := "Turkish Song Sample"
        artists := ["Artist"]
        duration := 147
        language := "tr"
        alignment_method := "sample"
        alignment_quality := 0 }
    segments :=
      [ { id := "seg_001"
          text := "Sample Turkish text"
          start := 1/2
          end_ := 4
          words :=
            [ { text := "Sample"
                start := 1/2
                end_ := 3/2
                confidence := 4/5
                syllables :=
                  [ { text := "Sam", start := 1/2, end_ := 1 }
                  , { text := "ple", start := 1, end_ := 3/2 } ]
                translation := some { literal := "example", contextual := some "example" } } ] } ] }

/-- App.tsx `loadAlignedData`: try the primary resource
(`yana_smart_processed.json`), on any throw try the fallback resource
(`yana_claude_aligned.json`), on any throw return `sampleLyricsData`.
Each fetch-and-parse outcome is modelled as `Except String LyricsDoc`
(`error` = the fetch or `response.json()` threw); both catches swallow
the error, so the function is total and never propagates a failure. -/
def loadAlignedData (primary fallbackRes : Except String LyricsDoc) : LyricsDoc :=
  match primary with
  | Except.ok data => data
  | Except.error _ =>
    match fallbackRes with
    | Except.ok data => data
    | Except.error _ => sampleLyricsData

/-! ## Syllable view renderer (LyricsDisplay.tsx `renderSyllableView`) -/

/-- The text fragments produced by the source map over `word.syllables`
(a span holding `syllable.text`, then a hyphen whenever
`index < word.syllables.length - 1`): the text of each syllable, with a
hyphen after every syllable except the last. -/
def renderSyllables : List Syllable → List String
  | [] => []
  | [s] => [s.text]
  | s :: rest => s.text :: "-" :: renderSyllables rest

/-- The trailing translation fragment:
`showTranslations && word.translation && <span className="translation">({word.translation.literal})</span>`. -/
def translationSuffix (showTranslations : Bool) (word : Word) : List String :=
  if showTranslations then
    match word.translation with
    | some tr => ["(" ++ tr.literal ++ ")"]
    | none => []
  else []

/-- LyricsDisplay.tsx `renderSyllableView(word)`, as the list of text
fragments rendered inside the word `<span>`: the syllable fragments
followed by the optional translation suffix.  Note the `text` field of
the word itself is never rendered in this view. -/
def renderSyllableView (showTranslations : Bool) (word : Word) : List String :=
  renderSyllables word.syllables ++ translationSuffix showTranslations word

/-! ## Song library (SongManager.tsx) -/

/-- `Song.status` union type. -/
inductive Status where
  | new
  | downloading
  | downloaded
  | lyrics_searching
  | lyrics_found
  | processing
  | ready
  | error
deriving Repr, DecidableEq

/-- `Song.lyricsStatus` union type. -/
inductive LyricsStatus where
  | none
  | searching
  | found
  | verified
  | user_edited
deriving Repr, DecidableEq

/-- `LyricsSource` interface. -/
structure LyricsSource where
  url : String
  siteName : String
  lyrics : String
  confidence : ℚ
deriving Repr, DecidableEq

/-- `Song` interface (SongManager.tsx).  Optional (`?`) fields are
`Option`s. -/
structure Song where
  id : String
  youtubeUrl : String
  title : String
  artist : String
  language : String
  status : Status
  downloadedAt : Option String
  audioFilePath : Option String
  lyricsStatus : LyricsStatus
  lyricsSources : List LyricsSource
  finalLyrics : String
  lyricsVerified : Bool
  processingVersion : Option String
  processedAt : Option String
  processedDataPath : Option String
  duration : Option ℚ
  thumbnailUrl : Option String
  addedAt : String
  updatedAt : String
  error : Option String
deriving Repr, DecidableEq

/-- `Partial<Song>` as passed to `updateSong`: each field either absent
(`none`: keep the stored value) or present (`some v`: overwrite with
`v`).  `updatedAt`, even when present in the update object, is always
overridden by the spread order `{ ...song, ...updates, updatedAt: ... }`. -/
structure SongUpdates where
  id : Option String := Option.none
  youtubeUrl : Option String := Option.none
  title : Option String := Option.none
  artist : Option String := Option.none
  language : Option String := Option.none
  status : Option Status := Option.none
  downloadedAt : Option (Option String) := Option.none
  audioFilePath : Option (Option String) := Option.none
  lyricsStatus : Option LyricsStatus := Option.none
  lyricsSources : Option (List LyricsSource) := Option.none
  finalLyrics : Option String := Option.none
  lyricsVerified : Option Bool := Option.none
  processingVersion : Option (Option String) := Option.none
  processedAt : Option (Option String) := Option.none
  processedDataPath : Option (Option String) := Option.none
  duration : Option (Option ℚ) := Option.none
  thumbnailUrl : Option (Option String) := Option.none
  addedAt : Option String := Option.none
  updatedAt : Option String := Option.none
  error : Option (Option String) := Option.none
deriving Repr, DecidableEq

/-- The object spread `{ ...song, ...updates, updatedAt: new Date().toISOString() }`
in SongManager.tsx `updateSong`: fields present in `updates` overwrite
those of the song, and `updatedAt` is unconditionally refreshed to `now`. -/
def applySongUpdates (song : Song) (u : SongUpdates) (now : String) : Song :=
  { id := u.id.getD song.id
    youtubeUrl := u.youtubeUrl.getD song.youtubeUrl
    title := u.title.getD song.title
    artist := u.artist.getD song.artist
    language := u.language.getD song.language
    status := u.status.getD song.status
    downloadedAt := u.downloadedAt.getD song.downloadedAt
    audioFilePath := u.audioFilePath.getD song.audioFilePath
    lyricsStatus := u.lyricsStatus.getD song.lyricsStatus
    lyricsSources := u.lyricsSources.getD song.lyricsSources
    finalLyrics := u.finalLyrics.getD song.finalLyrics
    lyricsVerified := u.lyricsVerified.getD song.lyricsVerified
    processingVersion := u.processingVersion.getD song.processingVersion
    processedAt := u.processedAt.getD song.processedAt
    processedDataPath := u.processedDataPath.getD song.processedDataPath
    duration := u.duration.getD song.duration
    thumbnailUrl := u.thumbnailUrl.getD song.thumbnailUrl
    addedAt := u.addedAt.getD song.addedAt
    updatedAt := now
    error := u.error.getD song.error }

/-- The single localStorage key used by the song library. -/
def storageKey : String := "karaokeSongLibrary"

/-- localStorage, restricted to the values this component stores: a map
from keys to the (JSON-serialized) song collection stored under them. -/
def Storage : Type := String → Option (List Song)

/-- `localStorage.setItem(k, v)`. -/
def setItem (st : Storage) (k : String) (v : List Song) : Storage :=
  fun k2 => if k2 = k then some v else st k2

/-- SongManager component state touched by the library operations. -/
structure ManagerState where
  songs : List Song
  newYoutubeUrl : String
  storage : Storage

/-- SongManager.tsx `saveSongs(updatedSongs)`:
`setSongs(updatedSongs); localStorage.setItem(storageKey, JSON.stringify(updatedSongs));`. -/
def saveSongs (updatedSongs : List Song) (st : ManagerState) : ManagerState :=
  { st with songs := updatedSongs
            storage := setItem st.storage storageKey updatedSongs }

/-- SongManager.tsx `updateSong(songId, updates)`:
`songs.map(song => song.id === songId ? { ...song, ...updates, updatedAt: now } : song)`
followed by `saveSongs`. -/
def updateSong (songId : String) (u : SongUpdates) (now : String)
    (st : ManagerState) : ManagerState :=
  saveSongs
    (st.songs.map (fun song =>
      if song.id = songId then applySongUpdates song u now else song))
    st

/-! ## YouTube URL parsing (SongManager.tsx `extractVideoId`) and `addNewSong` -/

/-- The character class `[^&\n?#]` of the video-id capture group. -/
def isIdStopChar (c : Char) : Bool :=
  c = '&' || c = '\n' || c = '?' || c = '#'

/-- Try one regex alternative at the current position: if `pat` is a
literal prefix of `cs`, capture `[^&\n?#]+` greedily after it (at least
one character, else the alternative fails here). -/
def matchPrefixAt : List Char → List Char → Option (List Char)
  | [], rest =>
    let idChars := rest.takeWhile (fun c => !(isIdStopChar c))
    if idChars.isEmpty then Option.none else some idChars
  | _ :: _, [] => Option.none
  | p :: ps, c :: rest => if c = p then matchPrefixAt ps rest else Option.none

/-- The three alternatives of
`/(?:youtube\.com\/watch\?v=|youtu\.be\/|youtube\.com\/embed\/)([^&\n?#]+)/`,
in source order. -/
def watchPat : List Char := "youtube.com/watch?v=".data

/-- Second regex alternative. -/
def shortPat : List Char := "youtu.be/".data

/-- Third regex alternative. -/
def embedPat : List Char := "youtube.com/embed/".data

/-- The JS regex scan: at each successive start position try the three
alternatives in order (they are mutually exclusive at any one position);
return the first capture found, scanning left to right. -/
def scanForId : List Char → Option (List Char)
  | [] => Option.none
  | c :: rest =>
    match matchPrefixAt watchPat (c :: rest) with
    | some r => some r
    | Option.none =>
      match matchPrefixAt shortPat (c :: rest) with
      | some r => some r
      | Option.none =>
        match matchPrefixAt embedPat (c :: rest) with
        | some r => some r
        | Option.none => scanForId rest

/-- SongManager.tsx `extractVideoId(url)`: `url.match(regex)` with the
regex above; `match ? match[1] : null`. -/
def extractVideoId (url : String) : Option String :=
  (scanForId url.data).map fun cs => String.mk cs

/-- JS `String.prototype.trim()`: remove leading and trailing
whitespace. -/
def jsTrim (s : String) : String :=
  String.mk (((s.data.dropWhile Char.isWhitespace).reverse.dropWhile
    Char.isWhitespace).reverse)

/-- SongManager.tsx `addNewSong` (its synchronous state effect; the
subsequent `processNewSong` pipeline performs network calls and later
`updateSong` calls not modelled here):

```
if (!newYoutubeUrl.trim()) return;
const videoId = extractVideoId(newYoutubeUrl);
if (!videoId) { alert(...); return; }
const newSong = { id: `song-${Date.now()}`, ... };
saveSongs([newSong, ...songs]);
setNewYoutubeUrl("");
```

`nowMs` models `Date.now()` as already rendered into the id string,
`nowIso` models `new Date().toISOString()`. -/
def addNewSong (nowMs nowIso : String) (st : ManagerState) : ManagerState :=
  if jsTrim st.newYoutubeUrl = "" then st
  else
    match extractVideoId st.newYoutubeUrl with
    | Option.none => st
    | some _ =>
      let newSong : Song :=
        { id := "song-" ++ nowMs
          youtubeUrl := st.newYoutubeUrl
          title := "Extracting..."
          artist := "Unknown"
          language := "auto-detect"
          status := Status.new
          downloadedAt := Option.none
          audioFilePath := Option.none
          lyricsStatus := LyricsStatus.none
          lyricsSources := []
          finalLyrics := ""
          lyricsVerified := false
          processingVersion := Option.none
          processedAt := Option.none
          processedDataPath := Option.none
          duration := Option.none
          thumbnailUrl := Option.none
          addedAt := nowIso
          updatedAt := nowIso
          error := Option.none }
      let st2 := saveSongs (newSong :: st.songs) st
      { st2 with newYoutubeUrl := "" }

/-! ## Theorems -/

/-- Segment A of the overlap example: covers 0–5. -/
def segA : Segment := { id := "A", text := "A", start := 0, end_ := 5, words := [] }

/-- Segment B of the overlap example: covers 4–9. -/
def segB : Segment := { id := "B", text := "B", start := 4, end_ := 9, words := [] }

/-- The boolean containment test, as a proposition. -/
lemma segContains_true_iff (t : ℚ) (s : Segment) :
    segContains t s = true ↔ (s.start ≤ t ∧ t ≤ s.end_) := by
  simp only [segContains, decide_eq_true_eq, ge_iff_le]

/-- The negated boolean containment test, as a proposition. -/
lemma segContains_nottrue_iff (t : ℚ) (s : Segment) :
    (!segContains t s) = true ↔ ¬ (s.start ≤ t ∧ t ≤ s.end_) := by
  simp only [Bool.not_eq_true', segContains, decide_eq_false_iff_not, ge_iff_le]

/-- C1: for every time and ordered segment list, `getCurrentSegment`
returns none exactly when no segment interval `[start, end]` contains
the time, and returns `some s` exactly when `s` contains the time and
every segment before `s` in document order does not; with overlapping
segments A (0–5) and B (4–9) in that order, resolution at 4.5 returns A. -/
theorem getCurrentSegment_first_containing (t : ℚ) (segments : List Segment) :
    (getCurrentSegment t segments = Option.none ↔
      ∀ s ∈ segments, ¬ (s.start ≤ t ∧ t ≤ s.end_)) ∧
    (∀ s : Segment, getCurrentSegment t segments = some s ↔
      (s.start ≤ t ∧ t ≤ s.end_) ∧
      ∃ pre post, segments = pre ++ s :: post ∧
        ∀ s2 ∈ pre, ¬ (s2.start ≤ t ∧ t ≤ s2.end_)) ∧
    getCurrentSegment (4.5 : ℚ) [segA, segB] = some segA := by
  refine ⟨?_, ?_, ?_⟩
  · rw [getCurrentSegment, List.find?_eq_none]
    constructor
    · intro h s hs hc
      exact h s hs ((segContains_true_iff t s).mpr hc)
    · intro h s hs hc
      exact h s hs ((segContains_true_iff t s).mp hc)
  · intro s
    rw [getCurrentSegment, List.find?_eq_some]
    constructor
    · rintro ⟨hs, pre, post, heq, hpre⟩
      exact ⟨(segContains_true_iff t s).mp hs, pre, post, heq,
        fun s2 h2 => (segContains_nottrue_iff t s2).mp (hpre s2 h2)⟩
    · rintro ⟨hs, pre, post, heq, hpre⟩
      exact ⟨(segContains_true_iff t s).mpr hs, pre, post, heq,
        fun s2 h2 => (segContains_nottrue_iff t s2).mpr (hpre s2 h2)⟩
  · simp [getCurrentSegment, segContains, segA, segB, List.find?]
    norm_num

/-- Degenerate word interval: start = end = 1. -/
def degenWord : Word :=
  { text := "x", start := 1, end_ := 1, confidence := 1, syllables := [],
    translation := Option.none }

/-- C2 (code bug evidence): on the degenerate interval start = end = 1
at time 1 (a time `>= start`), the source computes
`Math.min(100, Math.max(0, (0 / 0) * 100))`, which is NaN (modelled as
none), not the progress 1 the spec requires. -/
theorem getWordProgress_degenerate_nan :
    degenWord.start = degenWord.end_ ∧
    degenWord.start ≤ (1 : ℚ) ∧
    getWordProgress 1 degenWord = Option.none ∧
    wordProgressFrac 1 degenWord ≠ some 1 := by
  refine ⟨rfl, by norm_num [degenWord], ?_, ?_⟩
  · simp [getWordProgress, progressPercent, degenWord]
  · simp [wordProgressFrac, getWordProgress, progressPercent, degenWord]

/-- On a non-degenerate interval, for a time inside it the source
returns exactly the unclamped percentage. -/
lemma progressPercent_eq (t s e : ℚ) (hse : s < e) (h1 : s ≤ t) (h2 : t ≤ e) :
    progressPercent t s e = some ((t - s) / (e - s) * 100) := by
  have hne : e - s ≠ 0 := sub_ne_zero.mpr (ne_of_gt hse)
  have hpos : (0 : ℚ) < e - s := by linarith
  have hq0 : (0 : ℚ) ≤ (t - s) / (e - s) :=
    div_nonneg (by linarith) (le_of_lt hpos)
  have hq1 : (t - s) / (e - s) ≤ 1 := (div_le_one hpos).mpr (by linarith)
  have hx0 : (0 : ℚ) ≤ (t - s) / (e - s) * 100 := by nlinarith
  have hx100 : (t - s) / (e - s) * 100 ≤ 100 := by nlinarith
  simp only [progressPercent]
  rw [if_neg (not_lt.mpr h1), if_neg (not_lt.mpr h2), if_neg hne,
    max_eq_right hx0, min_eq_right hx100]

/-- Fractional (percent / 100) value inside a non-degenerate interval. -/
lemma progressFrac_eq (t s e : ℚ) (hse : s < e) (h1 : s ≤ t) (h2 : t ≤ e) :
    (progressPercent t s e).map (fun p => p / 100) = some ((t - s) / (e - s)) := by
  rw [progressPercent_eq t s e hse h1 h2, Option.map_some', mul_div_assoc]
  norm_num

/-- The fractional progress is 0 at the interval start. -/
lemma progressFrac_start (s e : ℚ) (hse : s < e) :
    (progressPercent s s e).map (fun p => p / 100) = some 0 := by
  rw [progressFrac_eq s s e hse le_rfl (le_of_lt hse)]
  norm_num

/-- The fractional progress is 1 at the interval end. -/
lemma progressFrac_end (s e : ℚ) (hse : s < e) :
    (progressPercent e s e).map (fun p => p / 100) = some 1 := by
  rw [progressFrac_eq e s e hse (le_of_lt hse) le_rfl,
    div_self (sub_ne_zero.mpr (ne_of_gt hse))]

/-- The fractional progress is monotone within the interval. -/
lemma progressFrac_mono (s e t1 t2 : ℚ) (hse : s < e) (h1 : s ≤ t1)
    (h12 : t1 ≤ t2) (h2 : t2 ≤ e) :
    ∃ p1 p2, (progressPercent t1 s e).map (fun p => p / 100) = some p1 ∧
      (progressPercent t2 s e).map (fun p => p / 100) = some p2 ∧ p1 ≤ p2 := by
  refine ⟨_, _, progressFrac_eq t1 s e hse h1 (le_trans h12 h2),
    progressFrac_eq t2 s e hse (le_trans h1 h12) h2, ?_⟩
  have hpos : (0 : ℚ) < e - s := by linarith
  exact (div_le_div_iff_of_pos_right hpos).mpr (by linarith)

/-- C3: on every non-degenerate interval (start < end), the fractional
word progress and segment progress equal 0 at start, 1 at end, and are
monotonically non-decreasing in the time within `[start, end]`. -/
theorem progress_endpoints_monotone (w : Word) (seg : Segment)
    (hw : w.start < w.end_) (hseg : seg.start < seg.end_) :
    wordProgressFrac w.start w = some 0 ∧
    wordProgressFrac w.end_ w = some 1 ∧
    (∀ t1 t2 : ℚ, w.start ≤ t1 → t1 ≤ t2 → t2 ≤ w.end_ →
      ∃ p1 p2, wordProgressFrac t1 w = some p1 ∧
        wordProgressFrac t2 w = some p2 ∧ p1 ≤ p2) ∧
    segmentProgressFrac seg.start seg = some 0 ∧
    segmentProgressFrac seg.end_ seg = some 1 ∧
    (∀ t1 t2 : ℚ, seg.start ≤ t1 → t1 ≤ t2 → t2 ≤ seg.end_ →
      ∃ p1 p2, segmentProgressFrac t1 seg = some p1 ∧
        segmentProgressFrac t2 seg = some p2 ∧ p1 ≤ p2) :=
  ⟨progressFrac_start _ _ hw, progressFrac_end _ _ hw,
    fun t1 t2 h1 h12 h2 => progressFrac_mono _ _ t1 t2 hw h1 h12 h2,
    progressFrac_start _ _ hseg, progressFrac_end _ _ hseg,
    fun t1 t2 h1 h12 h2 => progressFrac_mono _ _ t1 t2 hseg h1 h12 h2⟩

/-- Concrete non-degenerate word for the C3 witness: interval 0–2. -/
def monoWord : Word :=
  { text := "w", start := 0, end_ := 2, confidence := 1, syllables := [],
    translation := Option.none }

/-- Concrete non-degenerate segment for the C3 witness: interval 0–4. -/
def monoSeg : Segment := { id := "s", text := "s", start := 0, end_ := 4, words := [] }

/-- Witness for C3 at the word 0–2 and segment 0–4, with the
monotonicity part instantiated at times 0 and 1. -/
theorem progress_endpoints_monotone_witness :
    monoWord.start < monoWord.end_ ∧ monoSeg.start < monoSeg.end_ ∧
    wordProgressFrac monoWord.start monoWord = some 0 ∧
    wordProgressFrac monoWord.end_ monoWord = some 1 ∧
    ∃ p1 p2, wordProgressFrac 0 monoWord = some p1 ∧
      wordProgressFrac 1 monoWord = some p2 ∧ p1 ≤ p2 := by
  have h := progress_endpoints_monotone monoWord monoSeg (by decide) (by decide)
  exact ⟨by decide, by decide, h.1, h.2.1,
    h.2.2.1 0 1 (by decide) (by decide) (by decide)⟩

/-- C4: a user-initiated seek to time `t` sets the locally held current
time to `t` immediately (no engine time-update event is involved:
`engineTimeUpdate` is a separate transition), so a synchronous resolver
recompute on the post-seek state resolves the active segment and word
at `t`. -/
theorem handleSeek_immediate_local_time (time : ℚ) (s : SeekState)
    (segments : List Segment) :
    (handleSeek time s).appTime = time ∧
    getCurrentSegment (handleSeek time s).appTime segments =
      getCurrentSegment time segments ∧
    ∀ w : Word, isWordActive (handleSeek time s).appTime w = isWordActive time w := by
  have happ : (handleSeek time s).appTime = time := by
    by_cases h : s.audioPresent <;> simp [handleSeek, seekToTime, h]
  exact ⟨happ, by rw [happ], fun w => by rw [happ]⟩

/-- Initial player rate state: speed 100 %, rate 1, pitch preserved. -/
def rateState0 : PlayerRateState :=
  { playbackSpeed := 100, playbackRate := 1, preservesPitch := true }

/-- C5 counterexample: 200 (rate 2.0) is outside the supported set, yet
`handleSpeedChange` applies it: the playback rate changes from 1 to 2
instead of remaining unchanged.  The handler rejects nothing. -/
theorem handleSpeedChange_not_rejected :
    ((200 : ℤ) ∉ offeredSpeeds) ∧ ((2 : ℚ) ∉ supportedRates) ∧
    (handleSpeedChange 200 rateState0).playbackRate = 2 ∧
    (handleSpeedChange 200 rateState0).playbackRate ≠ rateState0.playbackRate := by
  refine ⟨by decide, by norm_num [supportedRates], ?_, ?_⟩
  · norm_num [handleSpeedChange, rateState0]
  · norm_num [handleSpeedChange, rateState0]

/-- C5 (amended): the rate-change handler performs no validation: every
received value is applied as rate value/100; the supported discrete set
is enforced only by the select options {50..100 step 10}, each of which
maps into {0.5..1.0 step 0.1}. -/
theorem handleSpeedChange_applies_value (speed : ℤ) (s : PlayerRateState) :
    (handleSpeedChange speed s).playbackRate = (speed : ℚ) / 100 ∧
    (handleSpeedChange speed s).playbackSpeed = speed ∧
    (handleSpeedChange speed s).preservesPitch = true ∧
    (speed ∈ offeredSpeeds → (handleSpeedChange speed s).playbackRate ∈ supportedRates) := by
  refine ⟨rfl, rfl, rfl, ?_⟩
  intro h
  simp only [offeredSpeeds] at h
  fin_cases h <;> norm_num [handleSpeedChange, supportedRates]

/-- Witness for the amended C5 at the offered value 50. -/
theorem handleSpeedChange_applies_value_witness :
    (50 : ℤ) ∈ offeredSpeeds ∧
    (handleSpeedChange 50 rateState0).playbackRate ∈ supportedRates :=
  ⟨by decide, (handleSpeedChange_applies_value 50 rateState0).2.2.2 (by decide)⟩

/-- C6: the load follows the two-level fallback chain (primary, then
fallback resource, then the built-in placeholder); every fetch failure
is consumed (the function is total on failure-carrying inputs, so no
failure propagates), and the terminal placeholder is non-empty. -/
theorem loadAlignedData_fallback_chain :
    (∀ (d : LyricsDoc) (f : Except String LyricsDoc),
      loadAlignedData (Except.ok d) f = d) ∧
    (∀ (e : String) (d : LyricsDoc),
      loadAlignedData (Except.error e) (Except.ok d) = d) ∧
    (∀ (e e2 : String),
      loadAlignedData (Except.error e) (Except.error e2) = sampleLyricsData) ∧
    sampleLyricsData.segments ≠ [] := by
  refine ⟨fun d f => rfl, fun e d => rfl, fun e e2 => rfl, ?_⟩
  simp [sampleLyricsData]

/-- A word whose syllables list is empty. -/
def wordNoSyllables : Word :=
  { text := "Merhaba", start := 0, end_ := 1, confidence := 1, syllables := [],
    translation := Option.none }

/-- C7 counterexample: for a word with empty syllables the syllable
view renders no fragments at all (the output fragment list is empty),
so the text of the word, "Merhaba", is not displayed — there is no
fallback to rendering the whole word. -/
theorem renderSyllableView_empty_drops_text :
    wordNoSyllables.syllables = [] ∧
    renderSyllableView true wordNoSyllables = [] ∧
    wordNoSyllables.text = "Merhaba" :=
  ⟨rfl, rfl, rfl⟩

/-- C7 (amended): for every word with empty syllables, syllable-view
rendering is total (does not throw) but renders only the optional
translation suffix; the text of the word is not rendered. -/
theorem renderSyllableView_empty_translation_only (showTranslations : Bool)
    (w : Word) (h : w.syllables = []) :
    renderSyllableView showTranslations w = translationSuffix showTranslations w := by
  simp [renderSyllableView, h, renderSyllables]

/-- Witness for the amended C7 at a concrete word. -/
theorem renderSyllableView_empty_translation_only_witness :
    wordNoSyllables.syllables = [] ∧
    renderSyllableView false wordNoSyllables = translationSuffix false wordNoSyllables :=
  ⟨rfl, renderSyllableView_empty_translation_only false wordNoSyllables rfl⟩

/-- C8: a unit with an inverted interval (end < start) is never active:
no time passes the containment test of any activation predicate, and
the predicates are total (no exception). -/
theorem inverted_interval_never_active (t : ℚ) (w : Word) (sy : Syllable)
    (seg : Segment) (hw : w.end_ < w.start) (hsy : sy.end_ < sy.start)
    (hseg : seg.end_ < seg.start) :
    isWordActive t w = false ∧ isSyllableActive t sy = false ∧
    isSegmentActive t seg = false ∧ segContains t seg = false := by
  refine ⟨?_, ?_, ?_, ?_⟩ <;>
  · simp only [isWordActive, isSyllableActive, isSegmentActive, segContains,
      decide_eq_false_iff_not, ge_iff_le, not_and, not_le]
    intro h1
    linarith

/-- Inverted word interval 5–3 for the C8 witness. -/
def invWord : Word :=
  { text := "i", start := 5, end_ := 3, confidence := 1, syllables := [],
    translation := Option.none }

/-- Inverted syllable interval 5–3 for the C8 witness. -/
def invSyl : Syllable := { text := "i", start := 5, end_ := 3 }

/-- Inverted segment interval 5–3 for the C8 witness. -/
def invSeg : Segment := { id := "i", text := "i", start := 5, end_ := 3, words := [] }

/-- Witness for C8 at time 4 against inverted intervals 5–3. -/
theorem inverted_interval_never_active_witness :
    invWord.end_ < invWord.start ∧ isWordActive 4 invWord = false ∧
    isSyllableActive 4 invSyl = false ∧ isSegmentActive 4 invSeg = false := by
  have h := inverted_interval_never_active 4 invWord invSyl invSeg
    (by decide) (by decide) (by decide)
  exact ⟨by decide, h.1, h.2.1, h.2.2.1⟩

/-- C9: every library mutation (`saveSongs`, and `updateSong` which goes
through it) rewrites the whole collection under the single key
`karaokeSongLibrary` and touches no other key; `updateSong` for one song
id writes every record with a different id back unchanged at its
position, and only the targeted record receives the updates together
with a refreshed `updatedAt`. -/
theorem updateSong_frame (songId now : String) (u : SongUpdates) (st : ManagerState) :
    storageKey = "karaokeSongLibrary" ∧
    (∀ songs2, (saveSongs songs2 st).songs = songs2 ∧
      (saveSongs songs2 st).storage storageKey = some songs2) ∧
    (updateSong songId u now st).storage storageKey =
      some (updateSong songId u now st).songs ∧
    (∀ k, k ≠ storageKey → (updateSong songId u now st).storage k = st.storage k) ∧
    (updateSong songId u now st).songs =
      st.songs.map (fun song =>
        if song.id = songId then applySongUpdates song u now else song) ∧
    (updateSong songId u now st).songs.length = st.songs.length ∧
    (∀ i (hi : i < st.songs.length),
      ((st.songs.get ⟨i, hi⟩).id ≠ songId →
        (updateSong songId u now st).songs[i]? = some (st.songs.get ⟨i, hi⟩)) ∧
      ((st.songs.get ⟨i, hi⟩).id = songId →
        (updateSong songId u now st).songs[i]? =
          some (applySongUpdates (st.songs.get ⟨i, hi⟩) u now))) ∧
    (∀ song, (applySongUpdates song u now).updatedAt = now) := by
  refine ⟨rfl, fun songs2 => ⟨rfl, by simp [saveSongs, setItem]⟩,
    by simp [updateSong, saveSongs, setItem], ?_, rfl,
    by simp [updateSong, saveSongs], ?_, fun song => rfl⟩
  · intro k hk
    simp [updateSong, saveSongs, setItem, hk]
  · intro i hi
    have hrw : (updateSong songId u now st).songs =
        st.songs.map (fun song =>
          if song.id = songId then applySongUpdates song u now else song) := rfl
    rw [hrw]
    constructor
    · intro h
      rw [List.getElem?_map, List.getElem?_eq_getElem hi]
      simp only [List.get_eq_getElem] at h ⊢
      simp [h]
    · intro h
      rw [List.getElem?_map, List.getElem?_eq_getElem hi]
      simp only [List.get_eq_getElem] at h ⊢
      simp [h]

/-- A fully populated sample song with id "a" for witnesses. -/
def songA : Song :=
  { id := "a", youtubeUrl := "u", title := "T", artist := "Ar",
    language := "en", status := Status.ready, downloadedAt := Option.none,
    audioFilePath := Option.none, lyricsStatus := LyricsStatus.none,
    lyricsSources := [], finalLyrics := "", lyricsVerified := false,
    processingVersion := Option.none, processedAt := Option.none,
    processedDataPath := Option.none, duration := Option.none,
    thumbnailUrl := Option.none, addedAt := "t0", updatedAt := "t0",
    error := Option.none }

/-- A second sample song with id "b". -/
def songB : Song := { songA with id := "b", title := "T2" }

/-- A title-only update object. -/
def updTitle : SongUpdates := { title := some "New" }

/-- Initial library state with two songs and empty storage. -/
def libState0 : ManagerState :=
  { songs := [songA, songB], newYoutubeUrl := "", storage := fun _ => Option.none }

/-- Witness for C9: updating song "a" leaves song "b" (at index 1)
unchanged and stores the whole collection under the single key. -/
theorem updateSong_frame_witness :
    songB.id ≠ "a" ∧
    (updateSong "a" updTitle "t1" libState0).songs[1]? = some songB ∧
    (updateSong "a" updTitle "t1" libState0).storage storageKey =
      some (updateSong "a" updTitle "t1" libState0).songs := by
  have h := updateSong_frame "a" "t1" updTitle libState0
  refine ⟨by decide, ?_, h.2.2.1⟩
  have h7 := h.2.2.2.2.2.2.1 1 (by decide)
  have hb := h7.1 (by decide)
  exact hb.trans rfl

/-- Library state whose pending URL has no extractable video id. -/
def noMatchState : ManagerState :=
  { songs := [songA], newYoutubeUrl := "hello world", storage := fun _ => Option.none }

/-- Library state whose pending URL is whitespace-only. -/
def blankState : ManagerState :=
  { songs := [songA], newYoutubeUrl := "   ", storage := fun _ => Option.none }

/-- C10: when no video id can be extracted from the pending URL, or the
URL is blank after trimming, `addNewSong` adds no record: the state —
in particular the songs collection and the persisted storage — is
unchanged. -/
theorem addNewSong_invalid_url_noop (nowMs nowIso : String) (st : ManagerState)
    (h : jsTrim st.newYoutubeUrl = "" ∨
      extractVideoId st.newYoutubeUrl = Option.none) :
    (addNewSong nowMs nowIso st).songs = st.songs ∧
    (addNewSong nowMs nowIso st).storage = st.storage ∧
    addNewSong nowMs nowIso st = st := by
  have heq : addNewSong nowMs nowIso st = st := by
    rcases h with h | h
    · simp [addNewSong, h]
    · by_cases hb : jsTrim st.newYoutubeUrl = ""
      · simp [addNewSong, hb]
      · simp [addNewSong, hb, h]
  exact ⟨by rw [heq], by rw [heq], heq⟩

/-- Witness for C10 at the unparsable URL "hello world" and at a
whitespace-only URL. -/
theorem addNewSong_invalid_url_noop_witness :
    extractVideoId noMatchState.newYoutubeUrl = Option.none ∧
    (addNewSong "0" "t" noMatchState).songs = noMatchState.songs ∧
    jsTrim blankState.newYoutubeUrl = "" ∧
    (addNewSong "0" "t" blankState).songs = blankState.songs :=
  ⟨by decide,
    (addNewSong_invalid_url_noop "0" "t" noMatchState (Or.inr (by decide))).1,
    by decide,
    (addNewSong_invalid_url_noop "0" "t" blankState (Or.inl (by decide))).1⟩

end Karaoke
